import Mathlib

/-!
Shallow embedding of the sprite-export core of `sprite_builder`:
frame sampling and file naming of `exportSequence`, the animation clock
(`useAnimation`), the frame renderer snapshot/restore (`renderFrame`),
the preview-to-export rectangle (`updateExportPreview`), and the
image-effects fragment shader (`ImageEffectsShader`).

Real numbers of the JavaScript source are modelled by `ℚ`; machine
integers and frame indices by `ℕ`.
-/

namespace SpriteBuilder

/-! ## Frame sampling (`exportSequence`, src/unnamed/part_001 lines 558-569)

The source loop is
`for (let i = 0; i < totalFrames; i += step) framesToRender.push(i)`
with `step = Math.max(1, Math.floor(totalFrames / renderSteps))`,
followed by
`if (framesToRender[framesToRender.length-1] !== totalFrames-1) framesToRender.push(totalFrames-1)`.
The loop is embedded with explicit fuel; `totalFrames` units of fuel are
enough because each iteration advances `i` by `step ≥ 1`. -/

/-- The sampling loop body: starting at `i`, collect `i` and advance by
`step` while `i < t`, consuming one unit of fuel per iteration. -/
def framesLoopAux : ℕ → ℕ → ℕ → ℕ → List ℕ
  | 0, _, _, _ => []
  | fuel + 1, t, step, i =>
      if i < t then i :: framesLoopAux fuel t step (i + step) else []

/-- List of frame indices sampled by `exportSequence`
(src/unnamed/part_001 lines 558-569):
`step = max(1, ⌊totalFrames / renderSteps⌋)`, collect the multiples of
`step` below `totalFrames`, then append `totalFrames - 1` when the last
collected index differs from it. -/
def framesToRender (totalFrames renderSteps : ℕ) : List ℕ :=
  let step := max 1 (totalFrames / renderSteps)
  let l := framesLoopAux totalFrames totalFrames step 0
  if l.getLast? ≠ some (totalFrames - 1) then l ++ [totalFrames - 1] else l

/-- Characterization of the sampling from the spec sentence: the multiples
of `stride = max(1, ⌊totalFrames/renderSteps⌋)` below `totalFrames`, with
`totalFrames - 1` appended when the last multiple of `stride` below
`totalFrames` differs from `totalFrames - 1`. -/
def sampleSpec (totalFrames renderSteps : ℕ) : List ℕ :=
  let stride := max 1 (totalFrames / renderSteps)
  let multiples := (List.range totalFrames).filter (fun j => j % stride = 0)
  let lastMultiple := (totalFrames - 1) / stride * stride
  if lastMultiple = totalFrames - 1 then multiples else multiples ++ [totalFrames - 1]

/-- Padded frame index, `frameIndex.toString().padStart(4, '0')` in the
source (src/unnamed/part_001 line 601). -/
def pad4 (n : ℕ) : String :=
  let s := toString n
  String.mk (List.replicate (4 - s.length) '0') ++ s

/-- Export directory for one animation, built in the source as
`outputFolder + "/" + currentAnimation` (src/unnamed/part_001 line 537). -/
def animFolder (outputFolder currentAnimation : String) : String :=
  outputFolder ++ "/" ++ currentAnimation

/-- File path of one exported frame, built in the source as
`animationFolder + "/frame_" + paddedIndex + ".png"`
(src/unnamed/part_001 line 602). -/
def frameFileName (folder : String) (frameIndex : ℕ) : String :=
  folder ++ "/frame_" ++ pad4 frameIndex ++ ".png"

/-- Full list of file paths written by one `exportSequence` run:
one file per sampled frame, named by true frame index. -/
def exportFileNames (outputFolder currentAnimation : String)
    (totalFrames renderSteps : ℕ) : List String :=
  (framesToRender totalFrames renderSteps).map
    (frameFileName (animFolder outputFolder currentAnimation))

/-- Total frame count of a clip, `Math.floor(anim.duration * fps)` with
`fps = 30` in `useAnimation` (src/unnamed/part_002 lines 227-233). -/
def totalFramesOfClip (duration : ℚ) : ℕ := (⌊duration * 30⌋).toNat

/-- Normalized seek time computed by `handleFrameChange`
(Viewport.tsx line 643): `frame / (totalFramesInEvent - 1)`.
During a sequence export this handler receives the `frame-change` events
dispatched by `exportSequence` (src/unnamed/part_001 lines 585-592). -/
def frameChangeNormalizedTime (frame totalFramesInEvent : ℚ) : ℚ :=
  frame / (totalFramesInEvent - 1)

/-- Mixer time set by `handleFrameChange` (Viewport.tsx line 644):
`normalizedTime * anim.duration`. -/
def frameChangeMixerTime (frame totalFramesInEvent duration : ℚ) : ℚ :=
  frameChangeNormalizedTime frame totalFramesInEvent * duration

/-! ## Preview-to-export mapper (`updateExportPreview`, Viewport.tsx
lines 140-194) -/

/-- Export preview rectangle in on-screen pixels, before integer
rounding. -/
structure ExportRect where
  left : ℚ
  top : ℚ
  width : ℚ
  height : ℚ
  deriving DecidableEq

/-- Rectangle computed by `updateExportPreview` (Viewport.tsx lines
140-176) from the container size `(W, H)` and the requested export size
`(ew, eh)`, before the `Math.round` calls. -/
def exportPreviewRectRaw (W H ew eh : ℚ) : ExportRect :=
  let exportAspect := ew / eh
  let containerAspect := W / H
  let p : ℚ × ℚ :=
    if containerAspect < exportAspect then
      let scaleFactor := min 0.98 (0.85 + W / 1500 * 0.13)
      let previewWidth := W * scaleFactor
      (previewWidth, previewWidth / exportAspect)
    else
      let scaleFactor := min 0.98 (0.85 + H / 1000 * 0.13)
      let previewHeight := H * scaleFactor
      (previewHeight * exportAspect, previewHeight)
  let minPreviewSize := min W H * 0.5
  let previewWidth := max p.1 (minPreviewSize * exportAspect)
  let previewHeight := max p.2 minPreviewSize
  { left := (W - previewWidth) / 2, top := (H - previewHeight) / 2,
    width := previewWidth, height := previewHeight }

/-- JavaScript `Math.round`: `⌊x + 1/2⌋`. -/
def jsRound (q : ℚ) : ℤ := ⌊q + 1 / 2⌋

/-- Rounded rectangle stored on the canvas as `__exportPreviewRect`
(Viewport.tsx lines 173-190). -/
def exportPreviewRect (W H ew eh : ℚ) : ℤ × ℤ × ℤ × ℤ :=
  let r := exportPreviewRectRaw W H ew eh
  (jsRound r.left, jsRound r.top, jsRound r.width, jsRound r.height)

/-! ## Image-effects fragment shader (`ImageEffectsShader`, Viewport.tsx
lines 30-100), in exact rational arithmetic -/

/-- Vector of three rational components, standing for a GLSL `vec3`
(`rgb`: `r = x`, `g = y`, `b = z`). -/
structure Vec3Q where
  x : ℚ
  y : ℚ
  z : ℚ
  deriving DecidableEq

/-- Vector of four rational components, standing for a GLSL `vec4`
(`rgba`: alpha is `w`). -/
structure Vec4Q where
  x : ℚ
  y : ℚ
  z : ℚ
  w : ℚ
  deriving DecidableEq

/-- GLSL `fract`: `x - floor(x)`. -/
def fractQ (q : ℚ) : ℚ := q - ⌊q⌋

/-- GLSL `step(edge, x)`: `0` when `x < edge`, else `1`. -/
def stepQ (edge x : ℚ) : ℚ := if x < edge then 0 else 1

/-- GLSL scalar `mix(a, b, t) = a·(1−t) + b·t`. -/
def mixQ (a b t : ℚ) : ℚ := a * (1 - t) + b * t

/-- GLSL `clamp(x, lo, hi)`. -/
def clampQ (x lo hi : ℚ) : ℚ := min (max x lo) hi

/-- Componentwise `mix` of two `vec4`s by a scalar. -/
def mix4 (a b : Vec4Q) (t : ℚ) : Vec4Q :=
  ⟨mixQ a.x b.x t, mixQ a.y b.y t, mixQ a.z b.z t, mixQ a.w b.w t⟩

/-- Shader helper `rgb2hsv` (Viewport.tsx lines 55-62), transcribed with
swizzles expanded (`c.bg = (c.z, c.y)` and so on). -/
def rgb2hsv (c : Vec3Q) : Vec3Q :=
  let K : Vec4Q := ⟨0, -(1 / 3), 2 / 3, -1⟩
  let p := mix4 ⟨c.z, c.y, K.w, K.z⟩ ⟨c.y, c.z, K.x, K.y⟩ (stepQ c.z c.y)
  let q := mix4 ⟨p.x, p.y, p.w, c.x⟩ ⟨c.x, p.y, p.z, p.x⟩ (stepQ p.x c.x)
  let d := q.x - min q.w q.y
  let e : ℚ := 1 / 10 ^ 10
  ⟨|q.z + (q.w - q.y) / (6 * d + e)|, d / (q.x + e), q.x⟩

/-- Shader helper `hsv2rgb` (Viewport.tsx lines 64-68), componentwise on
the three channels. -/
def hsv2rgb (c : Vec3Q) : Vec3Q :=
  let K : Vec4Q := ⟨1, 2 / 3, 1 / 3, 3⟩
  let p : Vec3Q := ⟨|fractQ (c.x + K.x) * 6 - K.w|, |fractQ (c.x + K.y) * 6 - K.w|,
    |fractQ (c.x + K.z) * 6 - K.w|⟩
  ⟨c.z * mixQ K.x (clampQ (p.x - K.x) 0 1) c.y,
   c.z * mixQ K.x (clampQ (p.y - K.x) 0 1) c.y,
   c.z * mixQ K.x (clampQ (p.z - K.x) 0 1) c.y⟩

/-- Posterization step of the shader (Viewport.tsx lines 92-95) on one
channel: when `colorSteps > 0`, `floor(c·steps)/steps` with
`steps = max(2, floor(colorSteps))`; otherwise the channel is returned
unchanged. -/
def posterizeChannel (colorSteps c : ℚ) : ℚ :=
  if 0 < colorSteps then
    let steps : ℚ := max 2 (⌊colorSteps⌋ : ℚ)
    (⌊c * steps⌋ : ℚ) / steps
  else c

/-- Uniform parameters of `ImageEffectsShader` (Viewport.tsx lines
31-38). -/
structure EffectsParams where
  brightness : ℚ
  contrast : ℚ
  saturation : ℚ
  hue : ℚ
  colorSteps : ℚ
  deriving DecidableEq

/-- Body of the fragment shader `main()` (Viewport.tsx lines 70-98):
brightness, contrast, hue rotation and saturation in HSV space,
posterization, then `gl_FragColor = vec4(color, texel.a)`. -/
def shaderMain (u : EffectsParams) (texel : Vec4Q) : Vec4Q :=
  let color1 : Vec3Q := ⟨texel.x * u.brightness, texel.y * u.brightness,
    texel.z * u.brightness⟩
  let color2 : Vec3Q := ⟨(color1.x - 1 / 2) * u.contrast + 1 / 2,
    (color1.y - 1 / 2) * u.contrast + 1 / 2,
    (color1.z - 1 / 2) * u.contrast + 1 / 2⟩
  let hsv := rgb2hsv color2
  let hsv2 : Vec3Q := ⟨fractQ (hsv.x + u.hue / 360), hsv.y * u.saturation, hsv.z⟩
  let color3 := hsv2rgb hsv2
  let color4 : Vec3Q := ⟨posterizeChannel u.colorSteps color3.x,
    posterizeChannel u.colorSteps color3.y,
    posterizeChannel u.colorSteps color3.z⟩
  ⟨color4.x, color4.y, color4.z, texel.w⟩

/-! ## Frame renderer (`renderFrame` / `exportFrame`,
src/unnamed/part_001 lines 213-473) -/

/-- RGB color triple, standing for a `THREE.Color`. -/
structure ColorQ where
  r : ℚ
  g : ℚ
  b : ℚ
  deriving DecidableEq

/-- Projection-specific camera fields: `aspect/fov/near/far` for a
`PerspectiveCamera`, `left/right/top/bottom/near/far` for an
`OrthographicCamera`. -/
inductive CameraProjection where
  | perspective (aspect fov near far : ℚ)
  | orthographic (left right top bottom near far : ℚ)
  deriving DecidableEq

/-- Active camera state touched by `renderFrame`. -/
structure Camera where
  position : Vec3Q
  rotation : Vec3Q
  zoom : ℚ
  projection : CameraProjection
  deriving DecidableEq

/-- Renderer state touched by `renderFrame`. The source's
`pixelRatio` is named `pixelDensity` here. -/
structure Renderer where
  width : ℚ
  height : ℚ
  pixelDensity : ℚ
  clearColor : ColorQ
  clearAlpha : ℚ
  deriving DecidableEq

/-- Scene state touched by `renderFrame`: only the background. -/
structure SceneState where
  background : Option ColorQ
  deriving DecidableEq

/-- Effect-composer state touched by `renderFrame`: its render size
(`composer.setSize` plus the per-pass `setSize` calls). -/
structure ComposerState where
  width : ℚ
  height : ℚ
  deriving DecidableEq

/-- The mutable render context shared with the interactive view. The
composer is optional, as in the source (`__effectComposer` may be
absent, with a fallback to direct rendering). -/
structure RenderCtx where
  renderer : Renderer
  scene : SceneState
  camera : Camera
  composer : Option ComposerState
  deriving DecidableEq

/-- Snapshot taken at the top of `renderFrame` (src/unnamed/part_001
lines 214-248): the `original*` variables, with the projection-specific
ones stored as options exactly as the source leaves them `undefined` for
the other camera kind. -/
structure Snapshot where
  sizeW : ℚ
  sizeH : ℚ
  clearColor : ColorQ
  clearAlpha : ℚ
  background : Option ColorQ
  pixelDensity : ℚ
  position : Vec3Q
  rotation : Vec3Q
  zoom : ℚ
  aspect : Option ℚ
  fov : Option ℚ
  near : Option ℚ
  far : Option ℚ
  left : Option ℚ
  right : Option ℚ
  top : Option ℚ
  bottom : Option ℚ

/-- Builds the snapshot exactly as `renderFrame` does before its `try`
block. -/
def takeSnapshot (c : RenderCtx) : Snapshot :=
  { sizeW := c.renderer.width, sizeH := c.renderer.height,
    clearColor := c.renderer.clearColor, clearAlpha := c.renderer.clearAlpha,
    background := c.scene.background, pixelDensity := c.renderer.pixelDensity,
    position := c.camera.position, rotation := c.camera.rotation,
    zoom := c.camera.zoom,
    aspect := match c.camera.projection with
      | .perspective aspect _ _ _ => some aspect
      | .orthographic _ _ _ _ _ _ => none,
    fov := match c.camera.projection with
      | .perspective _ fov _ _ => some fov
      | .orthographic _ _ _ _ _ _ => none,
    near := match c.camera.projection with
      | .perspective _ _ near _ => some near
      | .orthographic _ _ _ _ near _ => some near,
    far := match c.camera.projection with
      | .perspective _ _ _ far => some far
      | .orthographic _ _ _ _ _ far => some far,
    left := match c.camera.projection with
      | .perspective _ _ _ _ => none
      | .orthographic left _ _ _ _ _ => some left,
    right := match c.camera.projection with
      | .perspective _ _ _ _ => none
      | .orthographic _ right _ _ _ _ => some right,
    top := match c.camera.projection with
      | .perspective _ _ _ _ => none
      | .orthographic _ _ top _ _ _ => some top,
    bottom := match c.camera.projection with
      | .perspective _ _ _ _ => none
      | .orthographic _ _ _ bottom _ _ => some bottom }

/-- Mutation `renderer.setSize(width, height, false)` (line 252). -/
def stepSetSize (w h : ℚ) (c : RenderCtx) : RenderCtx :=
  { c with renderer := { c.renderer with width := w, height := h } }

/-- Mutation `renderer.setPixelRatio(1)` (line 253). -/
def stepSetPixelDensity (c : RenderCtx) : RenderCtx :=
  { c with renderer := { c.renderer with pixelDensity := 1 } }

/-- Mutation `renderer.setClearColor(0x000000, 0)` (line 256). -/
def stepSetClearColor (c : RenderCtx) : RenderCtx :=
  { c with renderer := { c.renderer with clearColor := ⟨0, 0, 0⟩, clearAlpha := 0 } }

/-- Mutation `scene.background = null` (line 257). -/
def stepClearBackground (c : RenderCtx) : RenderCtx :=
  { c with scene := { background := none } }

/-- Mutation of the camera projection for the export aspect (lines
259-276): a perspective camera gets `aspect = w/h`; an orthographic
camera keeps its vertical extent and widens `left/right` symmetrically. -/
def stepUpdateCamera (w h : ℚ) (c : RenderCtx) : RenderCtx :=
  { c with camera := { c.camera with projection :=
      match c.camera.projection with
      | .perspective _ fov near far => .perspective (w / h) fov near far
      | .orthographic left right top bottom near far =>
          let currentHeight := top - bottom
          let currentWidth := right - left
          let newWidth := currentHeight * (w / h)
          let widthDiff := newWidth - currentWidth
          .orthographic (left - widthDiff / 2) (right + widthDiff / 2)
            top bottom near far } }

/-- Mutation `composer.setSize(width, height)` plus the per-pass
`setSize` calls (lines 282-291), applied only when a composer exists. -/
def stepResizeComposer (w h : ℚ) (c : RenderCtx) : RenderCtx :=
  { c with composer := c.composer.map (fun _ => ⟨w, h⟩) }

/-- Point inside the `try` block of `renderFrame` at which an induced
failure raises, `atStart` meaning before any mutation and `duringRender`
meaning after every mutation (the render, canvas copy and
`toDataURL` do not mutate the snapshotted state). -/
inductive FailPoint where
  | atStart
  | afterSize
  | afterPixelDensity
  | afterClearColor
  | afterBackground
  | afterCameraUpdate
  | afterComposerResize
  | duringRender
  deriving DecidableEq

/-- State reached inside the `try` block when execution stops at the
given failure point (`none` = the whole block runs). -/
def tryBody (w h : ℚ) (c : RenderCtx) : Option FailPoint → RenderCtx
  | some .atStart => c
  | some .afterSize => stepSetSize w h c
  | some .afterPixelDensity => stepSetPixelDensity (stepSetSize w h c)
  | some .afterClearColor =>
      stepSetClearColor (stepSetPixelDensity (stepSetSize w h c))
  | some .afterBackground =>
      stepClearBackground (stepSetClearColor (stepSetPixelDensity (stepSetSize w h c)))
  | some .afterCameraUpdate =>
      stepUpdateCamera w h (stepClearBackground (stepSetClearColor
        (stepSetPixelDensity (stepSetSize w h c))))
  | some .afterComposerResize | some .duringRender | none =>
      stepResizeComposer w h (stepUpdateCamera w h (stepClearBackground
        (stepSetClearColor (stepSetPixelDensity (stepSetSize w h c)))))

/-- The `finally` block of `renderFrame` (lines 359-401): restore the
renderer, scene background, camera position/rotation/zoom, then the
projection-specific fields guarded by the camera kind and the
definedness of the snapshotted options, and resize the composer back to
the renderer's original size. -/
def restoreSnapshot (s : Snapshot) (c : RenderCtx) : RenderCtx :=
  let renderer : Renderer :=
    { width := s.sizeW, height := s.sizeH,
      clearColor := s.clearColor, clearAlpha := s.clearAlpha,
      pixelDensity := s.pixelDensity }
  let projection := match c.camera.projection, s.aspect, s.left with
    | .perspective _ fov near far, some a0, _ =>
        .perspective a0 (s.fov.getD fov) (s.near.getD near) (s.far.getD far)
    | .orthographic _ right top bottom near far, _, some l0 =>
        .orthographic l0 (s.right.getD right) (s.top.getD top)
          (s.bottom.getD bottom) (s.near.getD near) (s.far.getD far)
    | proj, _, _ => proj
  { renderer := renderer,
    scene := { background := s.background },
    camera := { position := s.position, rotation := s.rotation,
                zoom := s.zoom, projection := projection },
    composer := c.composer.map (fun _ => ⟨s.sizeW, s.sizeH⟩) }

/-- Output of a successful `renderFrame`: the export canvas dimensions
backing the returned PNG data URL. -/
structure RenderOutput where
  width : ℚ
  height : ℚ
  deriving DecidableEq

/-- Error taxonomy of the spec (§7). `RenderUnavailable` models the
source's early abort with the "Could not access the 3D scene" toast;
`InvalidDimensions` appears in the spec's taxonomy only — the source has
no corresponding check; `Thrown` models an exception escaping the `try`
block of `renderFrame`. -/
inductive ExportErrorKind where
  | RenderUnavailable
  | InvalidDimensions
  | Thrown
  deriving DecidableEq

/-- Embedding of `renderFrame(frameIndex, scene, camera, renderer)`
(lines 213-402): snapshot, run the `try` block up to the optional
induced failure, then unconditionally run the `finally` restore. The
frame index argument is unused by the source body itself. Returns the
result and the final shared context.

Even with no induced failure, the call fails deterministically when the
target has a zero dimension: after `renderer.setSize(w, h, false)` at
pixel ratio 1 the renderer canvas is `⌊w⌋ × ⌊h⌋` pixels, the render pass
itself completes, and then the copy `ctx.drawImage(rendererCanvas, …)`
(line 346) throws `InvalidStateError`, because HTML `drawImage` throws
for an `HTMLCanvasElement` source with a zero width or height. This
exception is raised after every mutation, so the restored state is that
of the full `try` block. Negative targets go through the DOM's unsigned
coercion of the canvas size and are outside this model. -/
def renderFrame (w h : ℚ) (c : RenderCtx) (failAt : Option FailPoint) :
    Except Unit RenderOutput × RenderCtx :=
  let snap := takeSnapshot c
  let mutated := tryBody w h c failAt
  let result : Except Unit RenderOutput := match failAt with
    | none => if ⌊w⌋ = 0 ∨ ⌊h⌋ = 0 then .error () else .ok ⟨w, h⟩
    | some _ => .error ()
  (result, restoreSnapshot snap mutated)

/-- Handles that `exportFrame` pulls off the canvas (`__r3f.fiber`):
any of them may be missing before initialization. -/
structure ViewHandles where
  renderer : Option Renderer
  scene : Option SceneState
  camera : Option Camera
  composer : Option ComposerState

/-- Outcome of `exportFrame`: the surfaced result, the final handles,
and whether a render pass was attempted at all. -/
structure ExportOutcome where
  result : Except ExportErrorKind RenderOutput
  handles : ViewHandles
  renderAttempted : Bool

/-- Embedding of `exportFrame` (lines 405-473): abort with the
"Could not access the 3D scene" toast (`RenderUnavailable`) when
renderer, scene or camera is missing, otherwise call `renderFrame`
directly with the requested width/height — the source performs no
dimension validation. -/
def exportFrame (w h : ℚ) (handles : ViewHandles)
    (failAt : Option FailPoint) : ExportOutcome :=
  match handles.renderer, handles.scene, handles.camera with
  | some renderer, some scene, some camera =>
      let c : RenderCtx := ⟨renderer, scene, camera, handles.composer⟩
      let (res, c2) := renderFrame w h c failAt
      { result := (match res with
          | .ok out => .ok out
          | .error _ => .error .Thrown),
        handles := ⟨some c2.renderer, some c2.scene, some c2.camera, c2.composer⟩,
        renderAttempted := (match failAt with
          | none => true
          | some .duringRender => true
          | some _ => false) }
  | _, _, _ => { result := .error .RenderUnavailable, handles := handles,
                 renderAttempted := false }

/-! ## Animation clock (`useAnimation`, src/unnamed/part_002
lines 199-327) -/

/-- Named animation clip with its duration in seconds. -/
structure AnimClip where
  name : String
  duration : ℚ

/-- State kept by `useAnimation`. -/
structure ClockState where
  isPlaying : Bool
  currentFrame : ℕ
  totalFrames : ℕ
  currentAnimation : Option String

/-- One playback tick (lines 261-264):
`currentFrame := (currentFrame + 1) % totalFrames`. -/
def playbackTick (s : ClockState) : ClockState :=
  { s with currentFrame := (s.currentFrame + 1) % s.totalFrames }

/-- Manual step forward (lines 293-298): wrap to `0` from
`totalFrames - 1`. -/
def nextFrameClock (s : ClockState) : ClockState :=
  { s with currentFrame :=
      if s.totalFrames - 1 ≤ s.currentFrame then 0 else s.currentFrame + 1 }

/-- Manual step backward (lines 286-291): wrap to `totalFrames - 1`
from `0`. -/
def previousFrameClock (s : ClockState) : ClockState :=
  { s with currentFrame :=
      if s.currentFrame = 0 then s.totalFrames - 1 else s.currentFrame - 1 }

/-- Switching the active animation (`setAnimation`, lines 300-313):
reset `currentFrame` to `0` and, when the clip is found in the model,
recompute `totalFrames = ⌊duration · 30⌋`. -/
def setAnimationClock (model : List AnimClip) (animation : String)
    (s : ClockState) : ClockState :=
  let s2 := { s with currentAnimation := some animation, currentFrame := 0 }
  match model.find? (fun a => a.name = animation) with
  | some anim => { s2 with totalFrames := (⌊anim.duration * 30⌋).toNat }
  | none => s2

/-- Every element produced by the loop is at least the start index. -/
lemma framesLoopAux_le_of_mem {fuel t step i j : ℕ}
    (hj : j ∈ framesLoopAux fuel t step i) : i ≤ j := by
  induction fuel generalizing i with
  | zero => simp [framesLoopAux] at hj
  | succ fuel ih =>
    simp only [framesLoopAux] at hj
    by_cases h : i < t
    · simp [h] at hj
      rcases hj with rfl | hj
      · exact le_refl j
      · exact le_trans (Nat.le_add_right i step) (ih hj)
    · simp [h] at hj

/-- Every element produced by the loop is below `t`. -/
lemma framesLoopAux_lt_of_mem {fuel t step i j : ℕ}
    (hj : j ∈ framesLoopAux fuel t step i) : j < t := by
  induction fuel generalizing i with
  | zero => simp [framesLoopAux] at hj
  | succ fuel ih =>
    simp only [framesLoopAux] at hj
    by_cases h : i < t
    · simp [h] at hj
      rcases hj with rfl | hj
      · exact h
      · exact ih hj
    · simp [h] at hj

/-- With enough fuel and a positive step, the loop collects exactly the
arithmetic progression `i, i+step, i+2·step, …` below `t`. -/
lemma mem_framesLoopAux {fuel t step i j : ℕ} (hstep : 1 ≤ step)
    (hfuel : t - i ≤ fuel) :
    j ∈ framesLoopAux fuel t step i ↔ (∃ k, j = i + k * step) ∧ j < t := by
  induction fuel generalizing i with
  | zero =>
    simp only [framesLoopAux, List.not_mem_nil, false_iff]
    rintro ⟨⟨k, rfl⟩, hlt⟩
    omega
  | succ fuel ih =>
    simp only [framesLoopAux]
    by_cases h : i < t
    · have hfuel' : t - (i + step) ≤ fuel := by omega
      simp only [if_pos h, List.mem_cons, ih hfuel']
      constructor
      · rintro (rfl | ⟨⟨k, rfl⟩, hlt⟩)
        · exact ⟨⟨0, by omega⟩, h⟩
        · exact ⟨⟨k + 1, by ring⟩, hlt⟩
      · rintro ⟨⟨k, rfl⟩, hlt⟩
        cases k with
        | zero => left; omega
        | succ k => right; exact ⟨⟨k, by ring⟩, hlt⟩
    · simp only [if_neg h, List.not_mem_nil, false_iff]
      rintro ⟨⟨k, rfl⟩, hlt⟩
      omega

/-- The loop output is strictly ascending. -/
lemma framesLoopAux_chain {fuel t step i : ℕ} (hstep : 1 ≤ step) :
    List.Chain' (· < ·) (framesLoopAux fuel t step i) := by
  induction fuel generalizing i with
  | zero => simp [framesLoopAux]
  | succ fuel ih =>
    simp only [framesLoopAux]
    by_cases h : i < t
    · simp only [if_pos h]
      refine List.chain'_cons'.mpr ⟨?_, ih⟩
      intro y hy
      have := framesLoopAux_le_of_mem (List.mem_of_mem_head? hy)
      omega
    · simp [h]

/-- In a `≤`-sorted list, every element is at most the last one. -/
lemma le_getLast_of_sorted {l : List ℕ} (hs : List.Sorted (· ≤ ·) l)
    {x : ℕ} (hx : x ∈ l) (hne : l ≠ []) : x ≤ l.getLast hne := by
  induction l with
  | nil => cases hx
  | cons a l ih =>
    rcases eq_or_ne l [] with rfl | hl
    · simp at hx
      simp [hx, List.getLast]
    · rw [List.getLast_cons hl]
      rcases List.mem_cons.mp hx with rfl | hx
      · exact le_trans (List.rel_of_sorted_cons hs _ (List.getLast_mem hl))
          (le_refl _)
      · exact ih (List.Sorted.of_cons hs) hx hl

/-- The sampling loop started at `0` with full fuel equals the filtered
range of multiples of `step`. -/
lemma framesLoopAux_eq_filter (t step : ℕ) (hstep : 1 ≤ step) :
    framesLoopAux t t step 0 =
      (List.range t).filter (fun j => j % step = 0) := by
  have hmemL : ∀ j, j ∈ framesLoopAux t t step 0 ↔ (∃ k, j = k * step) ∧ j < t := by
    intro j
    rw [mem_framesLoopAux hstep (by omega)]
    simp only [zero_add]
  have hmemR : ∀ j, j ∈ (List.range t).filter (fun j => j % step = 0) ↔
      (∃ k, j = k * step) ∧ j < t := by
    intro j
    simp only [List.mem_filter, List.mem_range, decide_eq_true_eq]
    constructor
    · rintro ⟨hlt, hmod⟩
      exact ⟨⟨j / step, (Nat.div_mul_cancel (Nat.dvd_of_mod_eq_zero hmod)).symm⟩, hlt⟩
    · rintro ⟨⟨k, rfl⟩, hlt⟩
      exact ⟨hlt, Nat.mul_mod_left k step⟩
  have hpwL : List.Pairwise (· < ·) (framesLoopAux t t step 0) :=
    List.chain'_iff_pairwise.mp (framesLoopAux_chain hstep)
  have hpwR : List.Pairwise (· < ·) ((List.range t).filter (fun j => j % step = 0)) :=
    List.Pairwise.filter _ (List.pairwise_lt_range t)
  refine List.eq_of_perm_of_sorted
    ((List.perm_ext_iff_of_nodup (hpwL.imp ne_of_lt) (hpwR.imp ne_of_lt)).mpr
      (fun a => (hmemL a).trans (hmemR a).symm))
    (hpwL.imp le_of_lt) (hpwR.imp le_of_lt)

/-- With `t ≥ 1`, the loop output ends in `t - 1` exactly when `step`
divides `t - 1`. -/
lemma framesLoopAux_getLast?_iff (t step : ℕ) (ht : 1 ≤ t) (hstep : 1 ≤ step) :
    (framesLoopAux t t step 0).getLast? = some (t - 1) ↔ step ∣ (t - 1) := by
  have hmem : ∀ j, j ∈ framesLoopAux t t step 0 ↔ (∃ k, j = k * step) ∧ j < t := by
    intro j
    rw [mem_framesLoopAux hstep (by omega)]
    simp only [zero_add]
  have h0 : (0 : ℕ) ∈ framesLoopAux t t step 0 := (hmem 0).mpr ⟨⟨0, by ring⟩, by omega⟩
  have hne : framesLoopAux t t step 0 ≠ [] := List.ne_nil_of_mem h0
  constructor
  · intro h
    have hlast : t - 1 ∈ framesLoopAux t t step 0 := by
      have := List.getLast?_eq_getLast _ hne
      rw [this] at h
      have := List.getLast_mem hne
      rwa [Option.some_inj.mp h] at this
    obtain ⟨⟨k, hk⟩, _⟩ := (hmem (t - 1)).mp hlast
    exact ⟨k, by rw [hk]; exact Nat.mul_comm k step⟩
  · intro hdvd
    obtain ⟨k, hk⟩ := hdvd
    have hmemlast : t - 1 ∈ framesLoopAux t t step 0 :=
      (hmem (t - 1)).mpr ⟨⟨k, by rw [hk]; exact Nat.mul_comm step k⟩, by omega⟩
    have hsorted : List.Sorted (· ≤ ·) (framesLoopAux t t step 0) :=
      (List.chain'_iff_pairwise.mp (framesLoopAux_chain hstep)).imp le_of_lt
    have hle : t - 1 ≤ (framesLoopAux t t step 0).getLast hne :=
      le_getLast_of_sorted hsorted hmemlast hne
    have hlt : (framesLoopAux t t step 0).getLast hne < t :=
      framesLoopAux_lt_of_mem (List.getLast_mem hne)
    rw [List.getLast?_eq_getLast _ hne]
    exact congrArg some (by omega)

/-- The sampled list of `exportSequence` matches the spec characterization. -/
lemma framesToRender_eq_sampleSpec (t r : ℕ) (ht : 1 ≤ t) :
    framesToRender t r = sampleSpec t r := by
  have hstep : 1 ≤ max 1 (t / r) := le_max_left _ _
  have hcond : ((framesLoopAux t t (max 1 (t / r)) 0).getLast? = some (t - 1)) ↔
      ((t - 1) / max 1 (t / r) * max 1 (t / r) = t - 1) := by
    rw [framesLoopAux_getLast?_iff t _ ht hstep]
    constructor
    · exact fun h => Nat.div_mul_cancel h
    · intro h
      exact ⟨(t - 1) / max 1 (t / r), by rw [Nat.mul_comm]; exact h.symm⟩
  simp only [framesToRender, sampleSpec, framesLoopAux_eq_filter t _ hstep]
  by_cases h : (t - 1) / max 1 (t / r) * max 1 (t / r) = t - 1
  · rw [if_pos h]
    rw [← framesLoopAux_eq_filter t _ hstep, if_neg]
    simp only [ne_eq, not_not]
    exact hcond.mpr h
  · rw [if_neg h]
    rw [← framesLoopAux_eq_filter t _ hstep, if_pos]
    simp only [ne_eq]
    exact fun hc => h (hcond.mp hc)

/-- The sampled list of `exportSequence` is strictly ascending. -/
lemma framesToRender_chain (t r : ℕ) (ht : 1 ≤ t) :
    List.Chain' (· < ·) (framesToRender t r) := by
  have hstep : 1 ≤ max 1 (t / r) := le_max_left _ _
  have hchain : List.Chain' (· < ·) (framesLoopAux t t (max 1 (t / r)) 0) :=
    framesLoopAux_chain hstep
  simp only [framesToRender]
  by_cases h : (framesLoopAux t t (max 1 (t / r)) 0).getLast? = some (t - 1)
  · rw [if_neg (by simpa using h)]
    exact hchain
  · rw [if_pos (by simpa using h)]
    rw [List.chain'_append]
    refine ⟨hchain, List.chain'_singleton _, ?_⟩
    intro x hx y hy
    simp only [List.head?_cons, Option.mem_def, Option.some_inj] at hy
    subst hy
    have hxl : x ∈ framesLoopAux t t (max 1 (t / r)) 0 :=
      List.mem_of_mem_getLast? hx
    have hxlt : x < t := framesLoopAux_lt_of_mem hxl
    have hxne : x ≠ t - 1 := by
      intro hxeq
      exact h (by rwa [hxeq] at hx)
    omega

/-- Every sampled frame index is below `totalFrames`. -/
lemma framesToRender_lt_of_mem {t r f : ℕ} (ht : 1 ≤ t)
    (hf : f ∈ framesToRender t r) : f < t := by
  simp only [framesToRender] at hf
  split at hf
  · rcases List.mem_append.mp hf with h | h
    · exact framesLoopAux_lt_of_mem h
    · simp at h
      omega
  · exact framesLoopAux_lt_of_mem hf

/-- C2: for every `totalFrames ≥ 1` and `renderSteps ≥ 1`, the frame
indices sampled by `exportSequence` are exactly the multiples of
`stride = max(1, ⌊totalFrames/renderSteps⌋)` below `totalFrames`, with
`totalFrames − 1` appended when the last multiple is not
`totalFrames − 1`; the list is strictly ascending; in particular
`totalFrames = 100, renderSteps = 7` yields
`[0,14,28,42,56,70,84,98,99]` and `totalFrames = 5, renderSteps = 12`
yields `[0,1,2,3,4]`. -/
theorem exportSequence_sampling (t r : ℕ) (ht : 1 ≤ t) (hr : 1 ≤ r) :
    framesToRender t r = sampleSpec t r ∧
    List.Chain' (· < ·) (framesToRender t r) ∧
    framesToRender 100 7 = [0, 14, 28, 42, 56, 70, 84, 98, 99] ∧
    framesToRender 5 12 = [0, 1, 2, 3, 4] :=
  ⟨framesToRender_eq_sampleSpec t r ht, framesToRender_chain t r ht,
    by decide, by decide⟩

/-- Witness for C2 at `totalFrames = 100`, `renderSteps = 7`. -/
theorem exportSequence_sampling_witness :
    framesToRender 100 7 = sampleSpec 100 7 ∧
    List.Chain' (· < ·) (framesToRender 100 7) ∧
    framesToRender 100 7 = [0, 14, 28, 42, 56, 70, 84, 98, 99] ∧
    framesToRender 5 12 = [0, 1, 2, 3, 4] :=
  exportSequence_sampling 100 7 (by decide) (by decide)

/-- C3, evaluated at the spec's end-to-end scenario: a 2-second clip at
the assumed 30 fps gives `totalFrames = 60`, but `exportSequence` with
`renderSteps = 1` samples only frames 0 and 59 (stride
`= max(1, ⌊60/1⌋) = 60`) and writes exactly two files — not the 60 files
the claim (and the source's own "Default to export all frames" comment
and the UI's "export approx. ceil(totalFrames/renderSteps) frames"
estimate) require. -/
theorem exportSequence_two_second_clip :
    totalFramesOfClip 2 = 60 ∧
    framesToRender 60 1 = [0, 59] ∧
    exportFileNames "out" "walk" 60 1 =
      ["out/walk/frame_0000.png", "out/walk/frame_0059.png"] ∧
    (exportFileNames "out" "walk" 60 1).length = 2 := by
  refine ⟨?_, by decide, by decide, by decide⟩
  norm_num [totalFramesOfClip]
  decide

/-- C7, evaluated: the number of sampled frames is *not* antitone in
`renderSteps` — raising `renderSteps` from 1 to 2 at `totalFrames = 100`
exports three frames instead of two, because the code uses
`stride = ⌊totalFrames/renderSteps⌋`, so a larger `renderSteps` shrinks
the stride and samples more frames. -/
theorem renderSteps_more_frames :
    framesToRender 100 1 = [0, 99] ∧
    framesToRender 100 2 = [0, 50, 99] ∧
    ¬ (framesToRender 100 2).length ≤ (framesToRender 100 1).length := by
  decide

/-- C6 counterexample: frame 1 is sampled by a `totalFrames = 3`,
`renderSteps = 3` export, and `handleFrameChange` seeks it at normalized
time `1/(3−1) = 1/2`, not `1/3` as the claim states. -/
theorem seek_normalized_time_counterexample :
    1 ∈ framesToRender 3 3 ∧
    frameChangeNormalizedTime 1 3 = 1 / 2 ∧
    frameChangeNormalizedTime 1 3 ≠ 1 / 3 := by
  refine ⟨by decide, ?_, ?_⟩ <;> norm_num [frameChangeNormalizedTime]

/-- C6 amended: for every sampled frame `f` of a sequence export with
`totalFrames ≥ 2`, the normalized time sought equals
`f / (totalFrames − 1)` (so the mixer time is
`f / (totalFrames − 1) × duration`); it lies in `[0, 1]`, and the final
frame `totalFrames − 1` is sought at exactly the clip duration. -/
theorem seek_normalized_time_amended (t r f : ℕ) (d : ℚ) (ht : 2 ≤ t)
    (hf : f ∈ framesToRender t r) :
    frameChangeNormalizedTime f t = (f : ℚ) / ((t : ℚ) - 1) ∧
    0 ≤ frameChangeNormalizedTime f t ∧
    frameChangeNormalizedTime f t ≤ 1 ∧
    frameChangeMixerTime f t d =
      (f : ℚ) / ((t : ℚ) - 1) * d ∧
    (f = t - 1 → frameChangeMixerTime f t d = d) := by
  have hflt : f < t := framesToRender_lt_of_mem (by omega) hf
  have htpos : (0 : ℚ) < (t : ℚ) - 1 := by
    have : (2 : ℚ) ≤ (t : ℚ) := by exact_mod_cast ht
    linarith
  have hfle : (f : ℚ) ≤ (t : ℚ) - 1 := by
    have : (f : ℚ) + 1 ≤ (t : ℚ) := by exact_mod_cast hflt
    linarith
  refine ⟨rfl, ?_, ?_, rfl, ?_⟩
  · exact div_nonneg (Nat.cast_nonneg f) (le_of_lt htpos)
  · rw [frameChangeNormalizedTime, div_le_one htpos]
    exact hfle
  · intro hlast
    subst hlast
    have hcast : ((t - 1 : ℕ) : ℚ) = (t : ℚ) - 1 := by
      have : 1 ≤ t := by omega
      push_cast [this]
      ring
    rw [frameChangeMixerTime, frameChangeNormalizedTime, hcast,
      div_self (ne_of_gt htpos), one_mul]

/-- Witness for the amended C6 at the final frame of a
`totalFrames = 3`, `renderSteps = 3` export with duration 5. -/
theorem seek_normalized_time_amended_witness :
    frameChangeNormalizedTime 2 3 = (2 : ℚ) / ((3 : ℚ) - 1) ∧
    0 ≤ frameChangeNormalizedTime 2 3 ∧
    frameChangeNormalizedTime 2 3 ≤ 1 ∧
    frameChangeMixerTime 2 3 5 = (2 : ℚ) / ((3 : ℚ) - 1) * 5 ∧
    (2 = 3 - 1 → frameChangeMixerTime 2 3 5 = 5) := by
  have h := seek_normalized_time_amended 3 3 2 5 (by decide) (by decide)
  exact_mod_cast h

/-- C9: with `totalFrames ≥ 1` and `currentFrame ∈ [0, totalFrames)`,
the playback tick wraps modulo `totalFrames`, `nextFrame` wraps from
`totalFrames − 1` to `0`, `previousFrame` wraps from `0` to
`totalFrames − 1` — all preserving the invariant — and switching the
active animation resets `currentFrame` to `0` and recomputes
`totalFrames = ⌊duration · 30⌋` from the selected clip, preserving the
invariant whenever the recomputed count is at least 1. -/
theorem animation_clock_invariant (s : ClockState) (model : List AnimClip)
    (animation : String) (ht : 1 ≤ s.totalFrames)
    (hf : s.currentFrame < s.totalFrames) :
    (playbackTick s).currentFrame < (playbackTick s).totalFrames ∧
    (playbackTick s).currentFrame = (s.currentFrame + 1) % s.totalFrames ∧
    (nextFrameClock s).currentFrame < (nextFrameClock s).totalFrames ∧
    (s.currentFrame = s.totalFrames - 1 → (nextFrameClock s).currentFrame = 0) ∧
    (previousFrameClock s).currentFrame < (previousFrameClock s).totalFrames ∧
    (s.currentFrame = 0 →
      (previousFrameClock s).currentFrame = s.totalFrames - 1) ∧
    (setAnimationClock model animation s).currentFrame = 0 ∧
    (∀ a, model.find? (fun c => c.name = animation) = some a →
      (setAnimationClock model animation s).totalFrames = (⌊a.duration * 30⌋).toNat ∧
      (1 ≤ (⌊a.duration * 30⌋).toNat →
        (setAnimationClock model animation s).currentFrame <
          (setAnimationClock model animation s).totalFrames)) := by
  refine ⟨?_, rfl, ?_, ?_, ?_, ?_, ?_, ?_⟩
  · exact Nat.mod_lt _ (by omega)
  · simp only [nextFrameClock]
    split <;> omega
  · intro h
    simp only [nextFrameClock]
    rw [if_pos (by omega)]
  · simp only [previousFrameClock]
    split <;> omega
  · intro h
    simp only [previousFrameClock, if_pos h]
  · simp only [setAnimationClock]
    split <;> rfl
  · intro a hfind
    simp only [setAnimationClock, hfind]
    exact ⟨True.intro, fun h1 => by omega⟩

/-- Witness for C9: a clock at frame 2 of 3 on clip "run" of duration 2
seconds. -/
theorem animation_clock_invariant_witness :
    (playbackTick ⟨false, 2, 3, some "run"⟩).currentFrame <
      (playbackTick ⟨false, 2, 3, some "run"⟩).totalFrames ∧
    (setAnimationClock [⟨"run", 2⟩] "run" ⟨false, 2, 3, some "run"⟩).currentFrame =
      0 := by
  have h := animation_clock_invariant ⟨false, 2, 3, some "run"⟩ [⟨"run", 2⟩]
    "run" (by decide) (by decide)
  exact ⟨h.1, h.2.2.2.2.2.2.1⟩

/-- C10: the image-effects fragment shader writes
`gl_FragColor = vec4(color, texel.a)` — for every uniform setting and
every input pixel the output alpha equals the input alpha, so sprite
transparency survives the whole effects chain. -/
theorem shader_preserves_alpha (u : EffectsParams) (texel : Vec4Q) :
    (shaderMain u texel).w = texel.w := rfl

/-- C8 counterexample: a channel at exactly 1.0 (fully saturated, as
produced by any 8-bit white texel) posterizes at `colorSteps = 4` to
`⌊1·4⌋/4 = 1`, which is none of the four levels `0, 1/4, 1/2, 3/4` —
the code maps `[0,1]` onto five values, not exactly four. -/
theorem posterization_counterexample :
    posterizeChannel 4 1 = 1 ∧
    ¬ (posterizeChannel 4 1 = 0 ∨ posterizeChannel 4 1 = 1 / 4 ∨
       posterizeChannel 4 1 = 1 / 2 ∨ posterizeChannel 4 1 = 3 / 4) := by
  have h4 : (⌊(4 : ℚ)⌋ : ℚ) = 4 := by norm_num
  have hsteps : max 2 (⌊(4 : ℚ)⌋ : ℚ) = 4 := by rw [h4]; norm_num
  have hval : posterizeChannel 4 1 = 1 := by
    rw [posterizeChannel, if_pos (by norm_num)]
    rw [hsteps]
    norm_num
  refine ⟨hval, ?_⟩
  rw [hval]
  norm_num

/-- C8 amended: `colorSteps = 0` leaves every channel unchanged;
`colorSteps = 4` maps every channel value in `[0, 1)` to one of the four
evenly spaced levels `0, 1/4, 1/2, 3/4`, while the boundary value `1`
maps to `1`, a fifth value. -/
theorem posterization_amended :
    (∀ c : ℚ, posterizeChannel 0 c = c) ∧
    (∀ c : ℚ, 0 ≤ c → c < 1 →
      posterizeChannel 4 c = 0 ∨ posterizeChannel 4 c = 1 / 4 ∨
      posterizeChannel 4 c = 1 / 2 ∨ posterizeChannel 4 c = 3 / 4) ∧
    posterizeChannel 4 1 = 1 := by
  have h4 : (⌊(4 : ℚ)⌋ : ℚ) = 4 := by norm_num
  have hsteps : max 2 (⌊(4 : ℚ)⌋ : ℚ) = 4 := by rw [h4]; norm_num
  refine ⟨?_, ?_, ?_⟩
  · intro c
    rw [posterizeChannel, if_neg (by norm_num)]
  · intro c hc0 hc1
    rw [posterizeChannel, if_pos (by norm_num), hsteps]
    have hk0 : (0 : ℤ) ≤ ⌊c * 4⌋ := Int.floor_nonneg.mpr (by positivity)
    have hk3 : ⌊c * 4⌋ < 4 := by
      have : c * 4 < 4 := by linarith
      have := Int.floor_le_floor (le_of_lt this)
      have h44 : ⌊(4 : ℚ)⌋ = 4 := by norm_num
      have hlt : ⌊c * 4⌋ ≤ 4 := by
        calc ⌊c * 4⌋ ≤ ⌊(4 : ℚ)⌋ := Int.floor_le_floor (by linarith)
        _ = 4 := h44
      rcases lt_or_eq_of_le hlt with h | h
      · exact h
      · exfalso
        have : (4 : ℚ) ≤ c * 4 := by
          have := Int.floor_le (c * 4)
          rw [h] at this
          exact_mod_cast this
        linarith
    interval_cases h : ⌊c * 4⌋ <;> simp [h] <;> norm_num
  · rw [posterizeChannel, if_pos (by norm_num), hsteps]
    norm_num

/-- Witness for the amended C8 at `c = 1/3` (which posterizes to `1/4`)
and `c = 7/5` with `colorSteps = 0`. -/
theorem posterization_amended_witness :
    (posterizeChannel 4 (1 / 3) = 0 ∨ posterizeChannel 4 (1 / 3) = 1 / 4 ∨
     posterizeChannel 4 (1 / 3) = 1 / 2 ∨ posterizeChannel 4 (1 / 3) = 3 / 4) ∧
    posterizeChannel 0 (7 / 5) = 7 / 5 :=
  ⟨posterization_amended.2.1 (1 / 3) (by norm_num) (by norm_num),
    posterization_amended.1 (7 / 5)⟩

/-- C1: whether `renderFrame` succeeds or an exception is raised at any
point of its `try` block after the snapshot is taken, the `finally`
restore leaves the renderer (size, pixel density, clear color, clear
alpha), the scene background, and the whole camera (position, rotation,
zoom and every projection-specific field) equal to their values before
the call. -/
theorem renderFrame_restores_state (w h : ℚ) (c : RenderCtx)
    (failAt : Option FailPoint) :
    (renderFrame w h c failAt).2.renderer = c.renderer ∧
    (renderFrame w h c failAt).2.scene.background = c.scene.background ∧
    (renderFrame w h c failAt).2.camera = c.camera := by
  obtain ⟨⟨rw0, rh0, pd0, cc0, ca0⟩, ⟨bg0⟩, ⟨pos0, rot0, zoom0, proj0⟩, comp0⟩ := c
  cases proj0 <;> rcases failAt with _ | fp <;> try cases fp
  all_goals
    simp [renderFrame, tryBody, restoreSnapshot, takeSnapshot, stepSetSize,
      stepSetPixelDensity, stepSetClearColor, stepClearBackground,
      stepUpdateCamera, stepResizeComposer]

/-- C5 counterexample: with an initialized context, a zero-width export
request does not fail with `InvalidDimensions` before any rendering
attempt — the render pass is attempted (the renderer state having
already been mutated), and the failure that then surfaces is the
generic thrown canvas-copy error (`drawImage` raising
`InvalidStateError` on the zero-width renderer canvas), caught by the
catch-all toast. -/
theorem renderFrame_validation_counterexample :
    (exportFrame 0 128 ⟨some ⟨800, 600, 2, ⟨0, 0, 0⟩, 1⟩, some ⟨none⟩,
      some ⟨⟨5, 5, 5⟩, ⟨0, 0, 0⟩, 1, .perspective (4 / 3) 75 (1 / 10) 1000⟩,
      none⟩ none).result = .error .Thrown ∧
    (exportFrame 0 128 ⟨some ⟨800, 600, 2, ⟨0, 0, 0⟩, 1⟩, some ⟨none⟩,
      some ⟨⟨5, 5, 5⟩, ⟨0, 0, 0⟩, 1, .perspective (4 / 3) 75 (1 / 10) 1000⟩,
      none⟩ none).result ≠ .error .InvalidDimensions ∧
    (exportFrame 0 128 ⟨some ⟨800, 600, 2, ⟨0, 0, 0⟩, 1⟩, some ⟨none⟩,
      some ⟨⟨5, 5, 5⟩, ⟨0, 0, 0⟩, 1, .perspective (4 / 3) 75 (1 / 10) 1000⟩,
      none⟩ none).renderAttempted = true := by
  have hzero : (⌊(0 : ℚ)⌋ = 0 ∨ ⌊(128 : ℚ)⌋ = 0) := Or.inl (by norm_num)
  refine ⟨?_, ?_, rfl⟩
  · simp only [exportFrame, renderFrame, if_pos hzero]
  · simp only [exportFrame, renderFrame, if_pos hzero]
    intro hcontra
    have := Except.error.inj hcontra
    exact ExportErrorKind.noConfusion this

/-- C5 amended: a missing renderer, scene or camera makes `exportFrame`
abort with the `RenderUnavailable` error and no render attempt, as the
claim states; but no `InvalidDimensions` validation exists. A
zero-sized target is not rejected up front: the renderer state is
mutated, a render pass runs, and the call then fails with a generic
thrown error when the canvas copy hits the zero-dimension renderer
canvas (after which the `finally` block still restores all state); a
positive-size call with no induced failure succeeds at exactly the
requested size. -/
theorem renderFrame_validation_amended (w h : ℚ) (handles : ViewHandles)
    (failAt : Option FailPoint) :
    ((handles.renderer = none ∨ handles.scene = none ∨ handles.camera = none) →
      (exportFrame w h handles failAt).result = .error .RenderUnavailable ∧
      (exportFrame w h handles failAt).renderAttempted = false) ∧
    (exportFrame w h handles failAt).result ≠ .error .InvalidDimensions ∧
    (∀ renderer scene camera, handles.renderer = some renderer →
      handles.scene = some scene → handles.camera = some camera →
      failAt = none →
      ((⌊w⌋ = 0 ∨ ⌊h⌋ = 0) →
        (exportFrame w h handles failAt).result = .error .Thrown) ∧
      (exportFrame w h handles failAt).renderAttempted = true ∧
      (1 ≤ ⌊w⌋ → 1 ≤ ⌊h⌋ →
        (exportFrame w h handles failAt).result = .ok ⟨w, h⟩)) := by
  obtain ⟨orend, oscene, ocam, ocomp⟩ := handles
  rcases orend with _ | renderer
  · simp [exportFrame]
  rcases oscene with _ | scene
  · simp [exportFrame]
  rcases ocam with _ | camera
  · simp [exportFrame]
  refine ⟨?_, ?_, ?_⟩
  · rintro (hcontra | hcontra | hcontra) <;> simp at hcontra
  · rcases failAt with _ | fp
    · simp only [exportFrame, renderFrame]
      split_ifs <;> simp
    · simp [exportFrame, renderFrame]
  · intro renderer2 scene2 camera2 h1 h2 h3 h4
    subst h4
    refine ⟨?_, rfl, ?_⟩
    · intro hzero
      simp only [exportFrame, renderFrame, if_pos hzero]
    · intro hw hh
      have hcond : ¬ (⌊w⌋ = 0 ∨ ⌊h⌋ = 0) := by
        push_neg
        omega
      simp only [exportFrame, renderFrame, if_neg hcond]

/-- Witness for the amended C5: an uninitialized context aborts with
`RenderUnavailable`, and an initialized context succeeds at 256×128. -/
theorem renderFrame_validation_amended_witness :
    ((exportFrame 10 10 ⟨none, none, none, none⟩ none).result =
      .error .RenderUnavailable ∧
     (exportFrame 10 10 ⟨none, none, none, none⟩ none).renderAttempted = false) ∧
    (exportFrame 256 128 ⟨some ⟨800, 600, 2, ⟨0, 0, 0⟩, 1⟩, some ⟨none⟩,
      some ⟨⟨5, 5, 5⟩, ⟨0, 0, 0⟩, 1, .perspective (4 / 3) 75 (1 / 10) 1000⟩,
      none⟩ none).result = .ok ⟨256, 128⟩ := by
  constructor
  · exact (renderFrame_validation_amended 10 10 ⟨none, none, none, none⟩ none).1
      (Or.inl rfl)
  · have h := (renderFrame_validation_amended 256 128
      ⟨some ⟨800, 600, 2, ⟨0, 0, 0⟩, 1⟩, some ⟨none⟩,
        some ⟨⟨5, 5, 5⟩, ⟨0, 0, 0⟩, 1, .perspective (4 / 3) 75 (1 / 10) 1000⟩,
        none⟩ none).2.2 _ _ _ rfl rfl rfl rfl
    exact h.2.2 (by norm_num) (by norm_num)

/-- C4 counterexample: three concrete inputs refute the claim on the
code. In a 100×100 viewport with a requested 1000×100 export, the
rectangle is 500 pixels wide and starts at `left = −200`, far outside
the viewport; in a 1000×1000 viewport with a 100×100 export the width is
980 > 90% of the axis; and with a 100×1000 export the shorter mapped
dimension is 98 < 30% of `min(W,H) = 1000` — the code clamps to 50% of
`min(W,H)` scaled by the aspect, caps the fill at 0.98 not 0.90, and
never clips the clamped rectangle to the viewport. -/
theorem export_rect_counterexample :
    (exportPreviewRectRaw 100 100 1000 100).width = 500 ∧
    ¬ (exportPreviewRectRaw 100 100 1000 100).width ≤ 100 ∧
    (exportPreviewRectRaw 100 100 1000 100).left = -200 ∧
    ¬ 0 ≤ (exportPreviewRectRaw 100 100 1000 100).left ∧
    (exportPreviewRectRaw 1000 1000 100 100).width = 980 ∧
    ¬ (exportPreviewRectRaw 1000 1000 100 100).width ≤ 0.9 * 1000 ∧
    (exportPreviewRectRaw 1000 1000 100 1000).width = 98 ∧
    ¬ 0.3 * min (1000 : ℚ) 1000 ≤ (exportPreviewRectRaw 1000 1000 100 1000).width := by
  refine ⟨?_, ?_, ?_, ?_, ?_, ?_, ?_, ?_⟩ <;>
    norm_num [exportPreviewRectRaw, min_def, max_def]

/-- C4 amended: for positive viewport and export sizes, the raw
(pre-rounding) rectangle has exactly the export aspect ratio
(`width·eh = height·ew`), is centered, its height is at least 50% of
`min(W,H)` and its width at least 50%·`min(W,H)`·(ew/eh), and each
dimension is bounded by the larger of 98% of its viewport axis and the
corresponding 50% minimum — containment in the viewport and the claimed
30%/90% constants do not hold in general. -/
theorem export_rect_amended (W H ew eh : ℚ) (hW : 0 < W) (hH : 0 < H)
    (hew : 0 < ew) (heh : 0 < eh) :
    (exportPreviewRectRaw W H ew eh).width * eh =
      (exportPreviewRectRaw W H ew eh).height * ew ∧
    (exportPreviewRectRaw W H ew eh).left =
      (W - (exportPreviewRectRaw W H ew eh).width) / 2 ∧
    (exportPreviewRectRaw W H ew eh).top =
      (H - (exportPreviewRectRaw W H ew eh).height) / 2 ∧
    min W H * 0.5 ≤ (exportPreviewRectRaw W H ew eh).height ∧
    min W H * 0.5 * (ew / eh) ≤ (exportPreviewRectRaw W H ew eh).width ∧
    (exportPreviewRectRaw W H ew eh).width ≤
      max (0.98 * W) (min W H * 0.5 * (ew / eh)) ∧
    (exportPreviewRectRaw W H ew eh).height ≤
      max (0.98 * H) (min W H * 0.5) := by
  have ha : 0 < ew / eh := div_pos hew heh
  have hane : ew / eh ≠ 0 := ne_of_gt ha
  have hehne : eh ≠ 0 := ne_of_gt heh
  simp only [exportPreviewRectRaw]
  split_ifs with hbr
  · -- export wider than container: width-driven fill
    have hsfle : min 0.98 (0.85 + W / 1500 * 0.13) ≤ 0.98 := min_le_left _ _
    have hsfpos : (0 : ℚ) < min 0.98 (0.85 + W / 1500 * 0.13) :=
      lt_min (by norm_num) (by positivity)
    set sf := min 0.98 (0.85 + W / 1500 * 0.13) with hsfdef
    refine ⟨?_, True.intro, True.intro, le_max_right _ _, le_max_right _ _, ?_, ?_⟩
    · have h1 : W * sf = W * sf / (ew / eh) * (ew / eh) :=
        (div_mul_cancel₀ _ hane).symm
      nth_rewrite 1 [h1]
      rw [← max_mul_of_nonneg _ _ ha.le, mul_assoc,
        div_mul_cancel₀ ew hehne]
    · refine max_le_max ?_ le_rfl
      calc W * sf ≤ W * 0.98 := mul_le_mul_of_nonneg_left hsfle hW.le
        _ = 0.98 * W := mul_comm _ _
    · refine max_le_max ?_ le_rfl
      have h2 : W * sf / (ew / eh) ≤ H * sf := by
        rw [div_le_iff ha]
        have h3 := mul_le_mul_of_nonneg_right ((div_lt_iff hH).mp hbr).le
          hsfpos.le
        ring_nf at h3 ⊢
        linarith
      calc W * sf / (ew / eh) ≤ H * sf := h2
        _ ≤ H * 0.98 := mul_le_mul_of_nonneg_left hsfle hH.le
        _ = 0.98 * H := mul_comm _ _
  · -- export at most as wide as container: height-driven fill
    have hbr2 : ew / eh ≤ W / H := not_lt.mp hbr
    have hsfle : min 0.98 (0.85 + H / 1000 * 0.13) ≤ 0.98 := min_le_left _ _
    have hsfpos : (0 : ℚ) < min 0.98 (0.85 + H / 1000 * 0.13) :=
      lt_min (by norm_num) (by positivity)
    set sf := min 0.98 (0.85 + H / 1000 * 0.13) with hsfdef
    refine ⟨?_, True.intro, True.intro, le_max_right _ _, le_max_right _ _, ?_, ?_⟩
    · rw [← max_mul_of_nonneg _ _ ha.le, mul_assoc, div_mul_cancel₀ ew hehne]
    · refine max_le_max ?_ le_rfl
      have h4 : H * sf * (ew / eh) ≤ H * sf * (W / H) :=
        mul_le_mul_of_nonneg_left hbr2 (by positivity)
      have h5 : H * sf * (W / H) = sf * W := by
        field_simp
        ring
      calc H * sf * (ew / eh) ≤ H * sf * (W / H) := h4
        _ = sf * W := h5
        _ ≤ 0.98 * W := mul_le_mul_of_nonneg_right hsfle hW.le
    · refine max_le_max ?_ le_rfl
      calc H * sf ≤ H * 0.98 := mul_le_mul_of_nonneg_left hsfle hH.le
        _ = 0.98 * H := mul_comm _ _

/-- Witness for the amended C4 at a 1920×1080 viewport and a 128×128
export request. -/
theorem export_rect_amended_witness :
    (exportPreviewRectRaw 1920 1080 128 128).width * 128 =
      (exportPreviewRectRaw 1920 1080 128 128).height * 128 ∧
    (exportPreviewRectRaw 1920 1080 128 128).left =
      (1920 - (exportPreviewRectRaw 1920 1080 128 128).width) / 2 ∧
    (exportPreviewRectRaw 1920 1080 128 128).top =
      (1080 - (exportPreviewRectRaw 1920 1080 128 128).height) / 2 ∧
    min (1920 : ℚ) 1080 * 0.5 ≤ (exportPreviewRectRaw 1920 1080 128 128).height ∧
    min (1920 : ℚ) 1080 * 0.5 * (128 / 128) ≤
      (exportPreviewRectRaw 1920 1080 128 128).width ∧
    (exportPreviewRectRaw 1920 1080 128 128).width ≤
      max (0.98 * 1920) (min (1920 : ℚ) 1080 * 0.5 * (128 / 128)) ∧
    (exportPreviewRectRaw 1920 1080 128 128).height ≤
      max (0.98 * 1080) (min (1920 : ℚ) 1080 * 0.5) :=
  export_rect_amended 1920 1080 128 128 (by norm_num) (by norm_num)
    (by norm_num) (by norm_num)

end SpriteBuilder
